import Mathlib

/-!
Verification development for the viewership sampling-and-projection
subsystem of a marketing-analytics dashboard (Twitch metrics calculator).

Python strings are modelled as `List Char`, Python floats as `Rat`,
Python ints as `Int`/`Nat`, `None` as `Option.none`, UTC instants as
integers (seconds).  Each definition is a direct translation of the
corresponding Python function; SQL queries are modelled as list
computations over the table contents.
-/

/-! ## Projection engine (`src/projections.py`, `project_twitch`) -/

structure ProjectionResult where
  projected_avg_viewers : Option Rat
  projected_peak : Option Rat
  projected_hours_watched : Option Rat
  projected_unique_views : Option Rat
  projected_vod_views : Option Rat
deriving Repr, DecidableEq

def project_twitch (planned_hours : Rat) (avg_viewers_30d : Option Rat)
    (peak_30d : Option Int) (churn_factor : Rat)
    (vod_views_per_hour : Option Rat) : ProjectionResult :=
  match avg_viewers_30d with
  | none =>
      { projected_avg_viewers := none
        projected_peak :=
          match peak_30d with
          | some p => some (p : Rat)
          | none => none
        projected_hours_watched := none
        projected_unique_views := none
        projected_vod_views := none }
  | some avg =>
      let projected_hours_watched := avg * planned_hours
      let projected_unique_views := avg * planned_hours * churn_factor
      let projected_vod_views :=
        match vod_views_per_hour with
        | some v => some (v * planned_hours)
        | none => none
      { projected_avg_viewers := some avg
        projected_peak :=
          match peak_30d with
          | some p => some (p : Rat)
          | none => none
        projected_hours_watched := projected_hours_watched
        projected_unique_views := projected_unique_views
        projected_vod_views := projected_vod_views }

/-! ## Duration parsing (`app.py`, `parse_twitch_duration_to_hours`)

`re.search r"(\d+)h"` finds the leftmost maximal digit run that is
immediately followed by the unit letter; the scan below carries the value
of the digit run ending just before the current position. -/

def scanUnitAux (c : Char) (acc : Option Nat) : List Char → Option Nat
  | [] => none
  | x :: xs =>
      if x.isDigit then
        scanUnitAux c (some ((acc.getD 0) * 10 + (x.toNat - 48))) xs
      else if x == c && acc.isSome then acc
      else scanUnitAux c none xs

def unitValue (c : Char) (s : List Char) : Nat :=
  (scanUnitAux c none s).getD 0

def parse_twitch_duration_to_hours (s : List Char) : Rat :=
  if s.isEmpty then 0
  else
    ((unitValue 'h' s : Rat)) + (unitValue 'm' s : Rat) / 60 +
      (unitValue 's' s : Rat) / 3600

/-! ## VOD summary (`app.py`, `vod_summary`)

`statistics.median`: sort ascending; odd count takes the middle element,
even count averages the two middle elements. -/

def insertSorted (x : Int) : List Int → List Int
  | [] => [x]
  | y :: ys => if x ≤ y then x :: y :: ys else y :: insertSorted x ys

def sortInts (l : List Int) : List Int := l.foldr insertSorted []

def medianInts (l : List Int) : Rat :=
  let s := sortInts l
  let n := s.length
  if n % 2 = 1 then ((s.getD (n / 2) 0 : Int) : Rat)
  else (((s.getD (n / 2 - 1) 0 + s.getD (n / 2) 0 : Int)) : Rat) / 2

structure VodRecord where
  view_count : Option Int
  duration : Option (List Char)
deriving Repr, DecidableEq

structure VodSummaryOut where
  vod_count : Nat
  avg_vod_views : Option Rat
  median_vod_views : Option Rat
  views_per_hour : Option Rat
deriving Repr, DecidableEq

def vodViews (vods : List VodRecord) : List Int :=
  vods.map (fun v => v.view_count.getD 0)

def vodHours (vods : List VodRecord) : List Rat :=
  vods.map (fun v => parse_twitch_duration_to_hours (v.duration.getD []))

def vod_summary (vods : List VodRecord) : VodSummaryOut :=
  if vods.isEmpty then
    { vod_count := 0, avg_vod_views := none, median_vod_views := none
      views_per_hour := none }
  else
    let views := vodViews vods
    let hours := vodHours vods
    let total_views : Int := views.sum
    let total_hours : Rat := hours.sum
    let avg_v : Option Rat :=
      if views.isEmpty then none
      else some ((total_views : Rat) / (views.length : Rat))
    let med_v : Option Rat :=
      if views.isEmpty then none else some (medianInts views)
    let vph : Option Rat :=
      if 0 < total_hours then some ((total_views : Rat) / total_hours) else none
    { vod_count := vods.length, avg_vod_views := avg_v
      median_vod_views := med_v, views_per_hour := vph }

/-! ## Time-series store (`src/storage.py`)

The `stream_samples` table is modelled as a list of rows, timestamps as
natural numbers (ISO-8601 UTC strings compare lexicographically, i.e.
chronologically), and each SQL query as the corresponding list
computation.  `lowerL` models Python `str.lower` on the channel login. -/

def lowerL (l : List Char) : List Char := l.map Char.toLower

structure StreamSample where
  ts_utc : Nat
  user_login : List Char
  is_live : Bool
  viewer_count : Int
  game_name : Option (List Char)
  title : Option (List Char)
  started_at : Option (List Char)
  stream_id : Option (List Char)
deriving Repr, DecidableEq

structure RollingStats where
  live_samples_30d : Nat
  avg_viewers_30d : Option Rat
  peak_viewers_30d : Option Int
  last_live_sample_utc : Option Nat
  last_any_sample_utc : Option Nat
deriving Repr, DecidableEq

/-- SQL `MAX` over a column of timestamps: `NULL` on the empty set. -/
def maxNat : List Nat → Option Nat
  | [] => none
  | x :: xs =>
      match maxNat xs with
      | none => some x
      | some m => some (max x m)

/-- SQL `MAX` over a column of integers: `NULL` on the empty set. -/
def maxInt : List Int → Option Int
  | [] => none
  | x :: xs =>
      match maxInt xs with
      | none => some x
      | some m => some (max x m)

/-- `WHERE user_login = ? AND ts_utc >= ? AND is_live = 1`. -/
def liveRowPred (key : List Char) (since : Nat) (r : StreamSample) : Bool :=
  r.user_login == key && decide (since ≤ r.ts_utc) && r.is_live

/-- `WHERE user_login = ?`. -/
def loginRowPred (key : List Char) (r : StreamSample) : Bool :=
  r.user_login == key

def get_stream_stats_30d (samples : List StreamSample) (user_login : List Char)
    (since : Nat) : RollingStats :=
  let live := samples.filter (liveRowPred (lowerL user_login) since)
  let anyRows := samples.filter (loginRowPred (lowerL user_login))
  { live_samples_30d := live.length
    avg_viewers_30d :=
      if live.isEmpty then none
      else some (((live.map (fun r => r.viewer_count)).sum : Rat) /
        (live.length : Rat))
    peak_viewers_30d := maxInt (live.map (fun r => r.viewer_count))
    last_live_sample_utc := maxNat (live.map (fun r => r.ts_utc))
    last_any_sample_utc := maxNat (anyRows.map (fun r => r.ts_utc)) }

/-! ## Sampling collector (`src/collector.py`, body of `main`) -/

structure LivePayload where
  viewer_count : Option Int
  game_name : Option (List Char)
  title : Option (List Char)
  started_at : Option (List Char)
  id : Option (List Char)
deriving Repr, DecidableEq

/-- One row of the tick: live payload present, or the offline row. -/
def sampleRow (ts : Nat) (login : List Char) (live : Option LivePayload) :
    StreamSample :=
  match live with
  | some s_ =>
      { ts_utc := ts, user_login := login, is_live := true
        viewer_count := s_.viewer_count.getD 0, game_name := s_.game_name
        title := s_.title, started_at := s_.started_at, stream_id := s_.id }
  | none =>
      { ts_utc := ts, user_login := login, is_live := false
        viewer_count := 0, game_name := none, title := none
        started_at := none, stream_id := none }

def tick_rows (ts : Nat) (channels : List (List Char))
    (live_map : List Char → Option LivePayload) : List StreamSample :=
  channels.map (fun login => sampleRow ts login (live_map login))

def insert_stream_samples (store rows : List StreamSample) : List StreamSample :=
  if rows.isEmpty then store else store ++ rows

inductive FetchFailure where
  | network : List Char → FetchFailure
deriving Repr, DecidableEq

/-- One loop iteration's environment: the timestamp captured at its start
and the outcome of `get_streams_by_logins`. -/
structure TickCtx where
  ts : Nat
  fetch : Except FetchFailure (List Char → Option LivePayload)

def collector_tick (channels : List (List Char)) (store : List StreamSample)
    (t : TickCtx) : List StreamSample :=
  match t.fetch with
  | .error _ => store
  | .ok m => insert_stream_samples store (tick_rows t.ts channels m)

def collector_run (channels : List (List Char)) (store : List StreamSample) :
    List TickCtx → List StreamSample
  | [] => store
  | t :: rest => collector_run channels (collector_tick channels store t) rest

/-- The rows contributed by the successful ticks of a run. -/
def successfulRows (channels : List (List Char)) : List TickCtx → List StreamSample
  | [] => []
  | t :: rest =>
      (match t.fetch with
       | .error _ => []
       | .ok m => tick_rows t.ts channels m) ++ successfulRows channels rest

/-- Example log used to instantiate the rolling-stats theorem. -/
def sampleLogB : List StreamSample :=
  [{ ts_utc := 0, user_login := ['c'], is_live := false, viewer_count := 0
     game_name := none, title := none, started_at := none, stream_id := none }]

/-! ## VOD aggregate cache (`src/storage.py`)

A `datetime` parsed by `fromisoformat` is modelled as a wall-clock
instant (seconds) plus an optional timezone offset; `tzinfo is None`
corresponds to `tzoffset = none`, and the code's
`replace(tzinfo=timezone.utc)` interprets the wall-clock value itself as
the UTC instant. -/

structure PyTimestamp where
  wall : Int
  tzoffset : Option Int
deriving Repr, DecidableEq

/-- The UTC instant an (aware-or-naive) timestamp denotes after the
code's naive-means-UTC adjustment. -/
def tsInstant (t : PyTimestamp) : Int := t.wall - t.tzoffset.getD 0

structure VodCacheRow where
  user_login : List Char
  updated_at_utc : PyTimestamp
  vod_count : Int
  avg_vod_views : Rat
  median_vod_views : Rat
  views_per_hour : Rat
deriving Repr, DecidableEq

/-- `WHERE user_login = ?` on the cache table. -/
def cacheRowPred (key : List Char) (r : VodCacheRow) : Bool :=
  r.user_login == key

def get_cached_vod_summary (table : List VodCacheRow) (user_login : List Char)
    (max_age_hours : Int) (now : Int) : Option VodCacheRow :=
  match table.find? (cacheRowPred (lowerL user_login)) with
  | none => none
  | some row =>
      if max_age_hours * 3600 < now - tsInstant row.updated_at_utc then none
      else some row

def countLogin (table : List VodCacheRow) (key : List Char) : Nat :=
  (table.filter (cacheRowPred key)).length

/-- `INSERT ... ON CONFLICT(user_login) DO UPDATE SET ...`: replace the
conflicting row in place, else append a fresh row. -/
def upsert_vod_summary (table : List VodCacheRow) (user_login : List Char)
    (now : PyTimestamp) (vod_count : Int)
    (avg_vod_views median_vod_views views_per_hour : Rat) : List VodCacheRow :=
  let key := lowerL user_login
  let newRow : VodCacheRow :=
    { user_login := key, updated_at_utc := now, vod_count := vod_count
      avg_vod_views := avg_vod_views, median_vod_views := median_vod_views
      views_per_hour := views_per_hour }
  if table.any (cacheRowPred key) then
    table.map (fun r => if cacheRowPred key r then newRow else r)
  else table ++ [newRow]

/-! ## Concrete data used by witnesses -/

def exChannels : List (List Char) := [['a'], ['b']]

def exLiveMap : List Char → Option LivePayload := fun l =>
  if l == ['a'] then
    some { viewer_count := some 7, game_name := none, title := none
           started_at := none, id := some ['x'] }
  else none

def errTick : TickCtx := { ts := 3, fetch := .error (.network ['x']) }

def cacheRowF : VodCacheRow :=
  { user_login := ['a'], updated_at_utc := { wall := 100, tzoffset := none }
    vod_count := 3, avg_vod_views := 10, median_vod_views := 10
    views_per_hour := 5 }

def cacheRowG : VodCacheRow :=
  { user_login := ['b'], updated_at_utc := { wall := 0, tzoffset := none }
    vod_count := 1, avg_vod_views := 2, median_vod_views := 2
    views_per_hour := 1 }

/-! ## Login normalization (`app.py`, `normalize_twitch_login`)

`s.strip().lower()`, then `re.sub(r"^https?://(www\.)?twitch\.tv/", "", s)`
(the four concrete prefixes the anchored regex can match), then
`s.split("?")[0].strip("/")`, then `s.replace("@", "")`. -/

/-- Python `str.strip(chars)`: drop matching characters from both ends. -/
def stripEnds (p : Char → Bool) (l : List Char) : List Char :=
  ((l.dropWhile p).reverse.dropWhile p).reverse

def strip_ws (l : List Char) : List Char := stripEnds Char.isWhitespace l

def strip_slashes (l : List Char) : List Char :=
  stripEnds (fun c => c == '/') l

/-- Anchored-at-start match of a literal pattern. -/
def isPre : List Char → List Char → Bool
  | [], _ => true
  | _ :: _, [] => false
  | a :: as_, b :: bs => a == b && isPre as_ bs

def urlPre1 : List Char :=
  ['h', 't', 't', 'p', 's', ':', '/', '/', 'w', 'w', 'w', '.',
   't', 'w', 'i', 't', 'c', 'h', '.', 't', 'v', '/']

def urlPre2 : List Char :=
  ['h', 't', 't', 'p', 's', ':', '/', '/', 't', 'w', 'i', 't', 'c', 'h',
   '.', 't', 'v', '/']

def urlPre3 : List Char :=
  ['h', 't', 't', 'p', ':', '/', '/', 'w', 'w', 'w', '.',
   't', 'w', 'i', 't', 'c', 'h', '.', 't', 'v', '/']

def urlPre4 : List Char :=
  ['h', 't', 't', 'p', ':', '/', '/', 't', 'w', 'i', 't', 'c', 'h',
   '.', 't', 'v', '/']

def dropUrl (l : List Char) : List Char :=
  if isPre urlPre1 l then l.drop urlPre1.length
  else if isPre urlPre2 l then l.drop urlPre2.length
  else if isPre urlPre3 l then l.drop urlPre3.length
  else if isPre urlPre4 l then l.drop urlPre4.length
  else l

/-- `s.split("?")[0]`: everything before the first question mark. -/
def takeBeforeQuery (l : List Char) : List Char :=
  l.takeWhile (fun c => !(c == '?'))

/-- `s.replace("@", "")`: removes every at sign. -/
def removeAtSign (l : List Char) : List Char :=
  l.filter (fun c => !(c == '@'))

def normalize_twitch_login (l : List Char) : List Char :=
  if l.isEmpty then []
  else
    removeAtSign (strip_slashes (takeBeforeQuery (dropUrl (lowerL (strip_ws l)))))

/-- A character allowed in a canonical login: lowercase ASCII letter,
digit, or underscore. -/
def cleanChar (c : Char) : Bool :=
  (97 ≤ c.toNat && c.toNat ≤ 122) || (48 ≤ c.toNat && c.toNat ≤ 57) ||
    c.toNat == 95

/-- C1: projection: with null `avg_viewers` every field is null except
`projected_peak` (the peak input cast to float, or null); with non-null
`avg_viewers` the fields are the passthrough average, the cast peak,
`avg*planned_hours`, `avg*planned_hours*churn_factor`, and
`vod_views_per_hour*planned_hours` when provided, else null. -/
theorem project_twitch_spec (planned_hours : Rat) (peak_30d : Option Int)
    (churn_factor : Rat) (vod_views_per_hour : Option Rat) (avg : Rat) :
    project_twitch planned_hours none peak_30d churn_factor vod_views_per_hour =
      { projected_avg_viewers := none
        projected_peak := peak_30d.map (fun p => (p : Rat))
        projected_hours_watched := none
        projected_unique_views := none
        projected_vod_views := none } ∧
    project_twitch planned_hours (some avg) peak_30d churn_factor vod_views_per_hour =
      { projected_avg_viewers := some avg
        projected_peak := peak_30d.map (fun p => (p : Rat))
        projected_hours_watched := some (avg * planned_hours)
        projected_unique_views := some (avg * planned_hours * churn_factor)
        projected_vod_views := vod_views_per_hour.map (fun v => v * planned_hours) } := by
  cases peak_30d <;> cases vod_views_per_hour <;>
    simp [project_twitch, Option.map]

lemma scanUnitAux_eq_none (c : Char) (l : List Char) (h : c ∉ l) :
    ∀ acc, scanUnitAux c acc l = none := by
  induction l with
  | nil => intro acc; rfl
  | cons x xs ih =>
      intro acc
      simp only [List.mem_cons, not_or] at h
      obtain ⟨hxc, hxs⟩ := h
      have hbeq : (x == c) = false := by
        simp only [beq_eq_false_iff_ne, ne_eq]
        exact fun e => hxc e.symm
      unfold scanUnitAux
      by_cases hd : x.isDigit
      · simp only [hd, if_pos]
        exact ih hxs _
      · simp only [hd, Bool.false_eq_true, if_neg, hbeq, Bool.false_and]
        exact ih hxs none

/-- C5: duration parsing extracts the hour, minute and second values
independently as the digits immediately preceding the unit letters and
returns `h + m/60 + s/3600` hours; a string containing no unit letter
(and in particular the empty or a malformed string) yields `0` hours;
`"1h2m3s"` gives `1 + 2/60 + 3/3600` hours and `"45m"` gives `3/4` hours. -/
theorem parse_twitch_duration_to_hours_spec (s : List Char) :
    parse_twitch_duration_to_hours s =
      (unitValue 'h' s : Rat) + (unitValue 'm' s : Rat) / 60 +
        (unitValue 's' s : Rat) / 3600 ∧
    ('h' ∉ s → 'm' ∉ s → 's' ∉ s → parse_twitch_duration_to_hours s = 0) ∧
    parse_twitch_duration_to_hours ['1', 'h', '2', 'm', '3', 's'] =
      1 + 2 / 60 + 3 / 3600 ∧
    parse_twitch_duration_to_hours [] = 0 ∧
    parse_twitch_duration_to_hours ['4', '5', 'm'] = 3 / 4 := by
  refine ⟨?_, ?_, ?_, rfl, ?_⟩
  case refine_3 =>
    norm_num [parse_twitch_duration_to_hours,
      show unitValue 'h' ['1', 'h', '2', 'm', '3', 's'] = 1 from rfl,
      show unitValue 'm' ['1', 'h', '2', 'm', '3', 's'] = 2 from rfl,
      show unitValue 's' ['1', 'h', '2', 'm', '3', 's'] = 3 from rfl]
  case refine_4 =>
    norm_num [parse_twitch_duration_to_hours,
      show unitValue 'h' ['4', '5', 'm'] = 0 from rfl,
      show unitValue 'm' ['4', '5', 'm'] = 45 from rfl,
      show unitValue 's' ['4', '5', 'm'] = 0 from rfl]
  · cases s with
    | nil => simp [parse_twitch_duration_to_hours, unitValue, scanUnitAux]
    | cons x xs => simp [parse_twitch_duration_to_hours]
  · intro hh hm hs
    have eh := scanUnitAux_eq_none 'h' s hh none
    have em := scanUnitAux_eq_none 'm' s hm none
    have es := scanUnitAux_eq_none 's' s hs none
    cases s with
    | nil => rfl
    | cons x xs =>
        simp [parse_twitch_duration_to_hours, unitValue, eh, em, es]

/-- C5 witness: concrete unit-less string evaluates to 0 hours. -/
theorem parse_twitch_duration_to_hours_spec_witness :
    (('h' ∉ ['x', 'y']) ∧ ('m' ∉ ['x', 'y']) ∧ ('s' ∉ ['x', 'y'])) ∧
      parse_twitch_duration_to_hours ['x', 'y'] = 0 :=
  ⟨by decide,
    (parse_twitch_duration_to_hours_spec ['x', 'y']).2.1
      (by decide) (by decide) (by decide)⟩

/-- C4: over a non-empty VOD list the summary returns the record count,
`total_views / count` as the average, the standard median of the view
counts, and `total_views / total_hours` (null when total parsed hours is
not positive); the empty list yields count 0 and null aggregates; views
`[100,300,200]` with durations `1h,1h,2h` give average 200, median 200
and 150 views per hour. -/
theorem vod_summary_spec (vods : List VodRecord) (hne : vods ≠ []) :
    vod_summary [] =
      { vod_count := 0, avg_vod_views := none, median_vod_views := none
        views_per_hour := none } ∧
    (vod_summary vods).vod_count = vods.length ∧
    (vod_summary vods).avg_vod_views =
      some (((vodViews vods).sum : Rat) / (vods.length : Rat)) ∧
    (vod_summary vods).median_vod_views = some (medianInts (vodViews vods)) ∧
    (vod_summary vods).views_per_hour =
      (if 0 < (vodHours vods).sum then
        some (((vodViews vods).sum : Rat) / (vodHours vods).sum)
       else none) ∧
    vod_summary
        [{ view_count := some 100, duration := some ['1', 'h'] },
         { view_count := some 300, duration := some ['1', 'h'] },
         { view_count := some 200, duration := some ['2', 'h'] }] =
      { vod_count := 3, avg_vod_views := some 200
        median_vod_views := some 200, views_per_hour := some 150 } := by
  have hemp : vods.isEmpty = false := by
    simpa [List.isEmpty_iff] using hne
  have hvemp : (vodViews vods).isEmpty = false := by
    simpa [vodViews, List.isEmpty_iff, List.map_eq_nil_iff] using hne
  have e1 : parse_twitch_duration_to_hours ['1', 'h'] = 1 := by
    norm_num [parse_twitch_duration_to_hours,
      show unitValue 'h' ['1', 'h'] = 1 from rfl,
      show unitValue 'm' ['1', 'h'] = 0 from rfl,
      show unitValue 's' ['1', 'h'] = 0 from rfl]
  have e2 : parse_twitch_duration_to_hours ['2', 'h'] = 2 := by
    norm_num [parse_twitch_duration_to_hours,
      show unitValue 'h' ['2', 'h'] = 2 from rfl,
      show unitValue 'm' ['2', 'h'] = 0 from rfl,
      show unitValue 's' ['2', 'h'] = 0 from rfl]
  have hmed : medianInts [100, 300, 200] = 200 := by
    norm_num [medianInts, show sortInts [100, 300, 200] = [100, 200, 300] from rfl]
  refine ⟨rfl, ?_, ?_, ?_, ?_, ?_⟩
  · simp [vod_summary, hemp, hvemp, vodViews, List.length_map, hne]
  · simp [vod_summary, hemp, hvemp, vodViews, List.length_map, hne]
  · simp [vod_summary, hemp, hvemp, vodViews, List.length_map, hne]
  · simp [vod_summary, hemp, hvemp, vodViews, List.length_map, hne]
  · simp only [vod_summary, vodViews, vodHours, List.isEmpty_cons,
      List.map_cons, List.map_nil, List.sum_cons, List.sum_nil,
      Option.getD_some, e1, e2, hmed, List.length_cons, List.length_nil]
    norm_num [hmed]

/-- C4 witness: the spec's example list is non-empty and its summary
fields agree with the claim. -/
theorem vod_summary_spec_witness :
    ([{ view_count := some 100, duration := some ['1', 'h'] },
      { view_count := some 300, duration := some ['1', 'h'] },
      { view_count := some 200, duration := some ['2', 'h'] }] ≠
        ([] : List VodRecord)) ∧
    vod_summary
        [{ view_count := some 100, duration := some ['1', 'h'] },
         { view_count := some 300, duration := some ['1', 'h'] },
         { view_count := some 200, duration := some ['2', 'h'] }] =
      { vod_count := 3, avg_vod_views := some 200
        median_vod_views := some 200, views_per_hour := some 150 } :=
  ⟨by decide,
    (vod_summary_spec
      [{ view_count := some 100, duration := some ['1', 'h'] },
       { view_count := some 300, duration := some ['1', 'h'] },
       { view_count := some 200, duration := some ['2', 'h'] }]
      (by decide)).2.2.2.2.2⟩

/-- C2: the rolling-stats query counts, averages and maximizes
`viewer_count` only over the channel's live samples inside the window
(null average/peak and count 0 when there are none), while
`last_any_sample_utc` is the maximum timestamp over all of the channel's
samples, independent of the window bound and the live flag. -/
theorem get_stream_stats_30d_spec (samples : List StreamSample)
    (login : List Char) (since : Nat) :
    (get_stream_stats_30d samples login since).live_samples_30d =
      (samples.filter (liveRowPred (lowerL login) since)).length ∧
    (get_stream_stats_30d samples login since).avg_viewers_30d =
      (if (samples.filter (liveRowPred (lowerL login) since)).isEmpty then none
       else some
        ((((samples.filter (liveRowPred (lowerL login) since)).map
            (fun r => r.viewer_count)).sum : Rat) /
          ((samples.filter (liveRowPred (lowerL login) since)).length : Rat))) ∧
    (get_stream_stats_30d samples login since).peak_viewers_30d =
      maxInt ((samples.filter (liveRowPred (lowerL login) since)).map
        (fun r => r.viewer_count)) ∧
    (samples.filter (liveRowPred (lowerL login) since) = [] →
      (get_stream_stats_30d samples login since).live_samples_30d = 0 ∧
      (get_stream_stats_30d samples login since).avg_viewers_30d = none ∧
      (get_stream_stats_30d samples login since).peak_viewers_30d = none) ∧
    (get_stream_stats_30d samples login since).last_any_sample_utc =
      maxNat ((samples.filter (loginRowPred (lowerL login))).map
        (fun r => r.ts_utc)) ∧
    (∀ since2,
      (get_stream_stats_30d samples login since2).last_any_sample_utc =
        (get_stream_stats_30d samples login since).last_any_sample_utc) := by
  refine ⟨rfl, rfl, rfl, ?_, rfl, fun since2 => rfl⟩
  intro h
  refine ⟨?_, ?_, ?_⟩ <;> simp [get_stream_stats_30d, h, maxInt]

/-- C2 witness: a log whose only sample is offline has no live rows in
the window, so the average and peak are null and the count is 0. -/
theorem get_stream_stats_30d_spec_witness :
    sampleLogB.filter (liveRowPred (lowerL ['c']) 5) = [] ∧
    ((get_stream_stats_30d sampleLogB ['c'] 5).live_samples_30d = 0 ∧
     (get_stream_stats_30d sampleLogB ['c'] 5).avg_viewers_30d = none ∧
     (get_stream_stats_30d sampleLogB ['c'] 5).peak_viewers_30d = none) :=
  ⟨by decide, (get_stream_stats_30d_spec sampleLogB ['c'] 5).2.2.2.1 (by decide)⟩

/-- C3: one collector tick builds exactly one row per configured
channel, in order, all carrying the tick's single timestamp: a channel
present in the live-lookup map yields a live row with the payload's
fields, an absent one yields an offline row with `viewer_count = 0` and
null metadata, and the whole batch is appended to the store at once. -/
theorem collector_tick_rows_spec (ts : Nat) (channels : List (List Char))
    (live_map : List Char → Option LivePayload) :
    (tick_rows ts channels live_map).length = channels.length ∧
    (∀ r, r ∈ tick_rows ts channels live_map → r.ts_utc = ts) ∧
    (∀ i (h1 : i < (tick_rows ts channels live_map).length)
       (h2 : i < channels.length),
       (tick_rows ts channels live_map).get ⟨i, h1⟩ =
         (match live_map (channels.get ⟨i, h2⟩) with
          | some s_ =>
              { ts_utc := ts, user_login := channels.get ⟨i, h2⟩
                is_live := true, viewer_count := s_.viewer_count.getD 0
                game_name := s_.game_name, title := s_.title
                started_at := s_.started_at, stream_id := s_.id }
          | none =>
              { ts_utc := ts, user_login := channels.get ⟨i, h2⟩
                is_live := false, viewer_count := 0, game_name := none
                title := none, started_at := none, stream_id := none })) ∧
    (∀ store, insert_stream_samples store (tick_rows ts channels live_map) =
      store ++ tick_rows ts channels live_map) := by
  refine ⟨List.length_map _ _, ?_, ?_, ?_⟩
  · intro r hr
    obtain ⟨login, _, rfl⟩ := List.mem_map.mp hr
    cases live_map login <;> rfl
  · intro i h1 h2
    have hg : (tick_rows ts channels live_map).get ⟨i, h1⟩ =
        sampleRow ts (channels.get ⟨i, h2⟩)
          (live_map (channels.get ⟨i, h2⟩)) := by
      simp [tick_rows, List.get_eq_getElem, List.getElem_map]
    rw [hg]
    cases live_map (channels.get ⟨i, h2⟩) <;> rfl
  · intro store
    unfold insert_stream_samples
    split
    · next hemp =>
        rw [List.isEmpty_iff.mp hemp, List.append_nil]
    · rfl

/-- C3 witness: with channels `a, b` and a live map containing only `a`,
the second row of the tick is the offline row for `b` with timestamp 5. -/
theorem collector_tick_rows_spec_witness :
    (1 < (tick_rows 5 exChannels exLiveMap).length) ∧ (1 < exChannels.length) ∧
    (tick_rows 5 exChannels exLiveMap).get ⟨1, by decide⟩ =
      { ts_utc := 5, user_login := ['b'], is_live := false, viewer_count := 0
        game_name := none, title := none, started_at := none
        stream_id := none } :=
  ⟨by decide, by decide, by
    have h := (collector_tick_rows_spec 5 exChannels exLiveMap).2.2.1 1
      (by decide) (by decide)
    exact h.trans (by decide)⟩

lemma collector_run_append_eq (channels : List (List Char))
    (store : List StreamSample) (ticks : List TickCtx) :
    collector_run channels store ticks = store ++ successfulRows channels ticks := by
  induction ticks generalizing store with
  | nil => simp [collector_run, successfulRows]
  | cons t rest ih =>
      rw [collector_run, successfulRows, ih]
      cases hf : t.fetch with
      | error e => simp [collector_tick, hf]
      | ok m =>
          simp only [collector_tick, hf]
          unfold insert_stream_samples
          split
          · next hemp => rw [List.isEmpty_iff.mp hemp]; simp
          · rw [List.append_assoc]

/-- C7: a tick whose live-streams lookup fails writes nothing — the
store is unchanged — and the loop goes on to the remaining ticks;
a whole run leaves the store equal to the initial store followed by the
rows of the successful ticks only, so an error tick contributes no rows
and never stops the run. -/
theorem collector_error_tick_spec (channels : List (List Char))
    (store : List StreamSample) (t : TickCtx) (e : FetchFailure)
    (h : t.fetch = .error e) :
    collector_tick channels store t = store ∧
    (∀ rest, collector_run channels store (t :: rest) =
      collector_run channels store rest) ∧
    (∀ ticks, collector_run channels store ticks =
      store ++ successfulRows channels ticks) := by
  have htick : collector_tick channels store t = store := by
    simp [collector_tick, h]
  refine ⟨htick, ?_, fun ticks => collector_run_append_eq channels store ticks⟩
  intro rest
  rw [collector_run, htick]

/-- C7 witness: a concrete failing tick leaves a concrete store as is. -/
theorem collector_error_tick_spec_witness :
    (errTick.fetch = .error (.network ['x'])) ∧
    collector_tick [['a']] sampleLogB errTick = sampleLogB :=
  ⟨rfl, (collector_error_tick_spec [['a']] sampleLogB errTick
    (.network ['x']) rfl).1⟩

/-- C6: the cached-VOD-aggregate lookup returns null exactly when the
channel has no cache row or the entry's age strictly exceeds the
threshold, and otherwise returns the stored row; a timestamp without
timezone information denotes its wall-clock value read as UTC, an aware
one is shifted by its offset. -/
theorem get_cached_vod_summary_spec (table : List VodCacheRow)
    (login : List Char) (max_age_hours now : Int) :
    (get_cached_vod_summary table login max_age_hours now = none ↔
      table.find? (cacheRowPred (lowerL login)) = none ∨
      ∃ r, table.find? (cacheRowPred (lowerL login)) = some r ∧
        max_age_hours * 3600 < now - tsInstant r.updated_at_utc) ∧
    (∀ r, table.find? (cacheRowPred (lowerL login)) = some r →
      now - tsInstant r.updated_at_utc ≤ max_age_hours * 3600 →
      get_cached_vod_summary table login max_age_hours now = some r) ∧
    (∀ w : Int, tsInstant { wall := w, tzoffset := none } = w) ∧
    (∀ w o : Int, tsInstant { wall := w, tzoffset := some o } = w - o) := by
  refine ⟨?_, ?_, fun w => by simp [tsInstant], fun w o => by simp [tsInstant]⟩
  · cases hf : table.find? (cacheRowPred (lowerL login)) with
    | none => simp [get_cached_vod_summary, hf]
    | some r =>
        by_cases hage :
            max_age_hours * 3600 < now - tsInstant r.updated_at_utc
        · simp only [get_cached_vod_summary, hf, if_pos hage]
          constructor
          · intro _
            exact Or.inr ⟨r, rfl, hage⟩
          · intro _
            trivial
        · simp only [get_cached_vod_summary, hf, if_neg hage]
          constructor
          · intro hc
            exact absurd hc (by simp)
          · rintro (hnone | ⟨r2, hr2, hage2⟩)
            · exact absurd hnone (by simp)
            · obtain rfl := Option.some_inj.mp hr2
              exact absurd hage2 hage
  · intro r hf hle
    simp only [get_cached_vod_summary, hf]
    rw [if_neg (by omega)]

/-- C6 witness: a present, fresh entry is returned. -/
theorem get_cached_vod_summary_spec_witness :
    ([cacheRowF].find? (cacheRowPred (lowerL ['a'])) = some cacheRowF) ∧
    ((200 : Int) - tsInstant cacheRowF.updated_at_utc ≤ 12 * 3600) ∧
    get_cached_vod_summary [cacheRowF] ['a'] 12 200 = some cacheRowF :=
  ⟨rfl, by decide,
    (get_cached_vod_summary_spec [cacheRowF] ['a'] 12 200).2.1 cacheRowF rfl
      (by decide)⟩

/-- C10: an entry whose age equals `max_age` exactly is still treated as
fresh and returned; only a strictly larger age is stale. -/
theorem get_cached_vod_summary_boundary_fresh (table : List VodCacheRow)
    (login : List Char) (max_age_hours now : Int) (r : VodCacheRow)
    (hf : table.find? (cacheRowPred (lowerL login)) = some r)
    (hage : now - tsInstant r.updated_at_utc = max_age_hours * 3600) :
    get_cached_vod_summary table login max_age_hours now = some r := by
  simp only [get_cached_vod_summary, hf]
  rw [if_neg (by omega)]

/-- C10 witness: an entry aged exactly 12 hours against a 12-hour
threshold is returned. -/
theorem get_cached_vod_summary_boundary_fresh_witness :
    ([cacheRowG].find? (cacheRowPred (lowerL ['b'])) = some cacheRowG) ∧
    ((43200 : Int) - tsInstant cacheRowG.updated_at_utc = 12 * 3600) ∧
    get_cached_vod_summary [cacheRowG] ['b'] 12 43200 = some cacheRowG :=
  ⟨rfl, by decide,
    get_cached_vod_summary_boundary_fresh [cacheRowG] ['b'] 12 43200 cacheRowG
      rfl (by decide)⟩

lemma countLogin_map_replace (table : List VodCacheRow) (key : List Char)
    (newRow : VodCacheRow) (hnew : newRow.user_login = key) (k : List Char) :
    countLogin (table.map (fun r => if cacheRowPred key r then newRow else r)) k
      = countLogin table k := by
  induction table with
  | nil => rfl
  | cons r rs ih =>
      by_cases hk : cacheRowPred key r
      · have hr : r.user_login = key := by
          simpa [cacheRowPred] using hk
        have hsame : cacheRowPred k newRow = cacheRowPred k r := by
          simp [cacheRowPred, hnew, hr]
        by_cases hkr : cacheRowPred k r
        · simp [countLogin, List.filter_cons, hk, hkr, hsame, hkr] at *
          omega
        · simp [countLogin, List.filter_cons, hk, hkr, hsame] at *
          exact ih
      · by_cases hkr : cacheRowPred k r
        · simp [countLogin, List.filter_cons, hk, hkr] at *
          omega
        · simp [countLogin, List.filter_cons, hk, hkr] at *
          exact ih

lemma filter_map_replace (table : List VodCacheRow) (key : List Char)
    (newRow : VodCacheRow) (hnew : newRow.user_login = key) :
    (table.map (fun r => if cacheRowPred key r then newRow else r)).filter
        (cacheRowPred key)
      = List.replicate (countLogin table key) newRow := by
  have hpnew : cacheRowPred key newRow = true := by
    simp [cacheRowPred, hnew]
  induction table with
  | nil => rfl
  | cons r rs ih =>
      by_cases hk : cacheRowPred key r
      · simp [countLogin, List.filter_cons, hk, hpnew, List.replicate_succ] at *
        exact ih
      · simp [countLogin, List.filter_cons, hk] at *
        exact ih

lemma countLogin_append (t1 t2 : List VodCacheRow) (k : List Char) :
    countLogin (t1 ++ t2) k = countLogin t1 k + countLogin t2 k := by
  simp [countLogin, List.filter_append]

lemma countLogin_zero_of_any_false (table : List VodCacheRow) (key : List Char)
    (h : table.any (cacheRowPred key) = false) : countLogin table key = 0 := by
  have hall : ∀ r ∈ table, ¬ cacheRowPred key r = true := by
    simpa [List.any_eq_false] using h
  simp [countLogin, List.filter_eq_nil_iff.mpr hall]

lemma upsert_filter_eq (table : List VodCacheRow) (login : List Char)
    (now : PyTimestamp) (vc : Int) (av md vp : Rat)
    (hinv : countLogin table (lowerL login) ≤ 1) :
    (upsert_vod_summary table login now vc av md vp).filter
        (cacheRowPred (lowerL login)) =
      [{ user_login := lowerL login, updated_at_utc := now, vod_count := vc
         avg_vod_views := av, median_vod_views := md
         views_per_hour := vp }] := by
  unfold upsert_vod_summary
  by_cases ha : table.any (cacheRowPred (lowerL login)) = true
  · rw [if_pos ha, filter_map_replace table (lowerL login) _ rfl]
    have h1 : 1 ≤ countLogin table (lowerL login) := by
      obtain ⟨r, hr, hp⟩ := List.any_eq_true.mp ha
      have hm : r ∈ table.filter (cacheRowPred (lowerL login)) :=
        List.mem_filter.mpr ⟨hr, hp⟩
      have := List.length_pos.mpr (List.ne_nil_of_mem hm)
      simpa [countLogin] using this
    rw [le_antisymm hinv h1]
    rfl
  · rw [if_neg ha, List.filter_append]
    have hempty : table.filter (cacheRowPred (lowerL login)) = [] := by
      have := countLogin_zero_of_any_false table (lowerL login)
        (by simpa using ha)
      simpa [countLogin, List.length_eq_zero] using this
    rw [hempty]
    simp [cacheRowPred]

lemma upsert_countLogin_le (table : List VodCacheRow) (login : List Char)
    (now : PyTimestamp) (vc : Int) (av md vp : Rat)
    (hinv : ∀ k, countLogin table k ≤ 1) (k : List Char) :
    countLogin (upsert_vod_summary table login now vc av md vp) k ≤ 1 := by
  unfold upsert_vod_summary
  by_cases ha : table.any (cacheRowPred (lowerL login)) = true
  · rw [if_pos ha, countLogin_map_replace table (lowerL login) _ rfl]
    exact hinv k
  · rw [if_neg ha, countLogin_append]
    have h0 : countLogin table (lowerL login) = 0 :=
      countLogin_zero_of_any_false table (lowerL login) (by simpa using ha)
    by_cases hk : lowerL login = k
    · subst hk
      have h1 : countLogin
          [(⟨lowerL login, now, vc, av, md, vp⟩ : VodCacheRow)]
          (lowerL login) = 1 := by
        simp [countLogin, List.filter_cons, cacheRowPred]
      rw [h0]
      omega
    · have h1 : countLogin
          [(⟨lowerL login, now, vc, av, md, vp⟩ : VodCacheRow)] k = 0 := by
        simp [countLogin, List.filter_cons, cacheRowPred, hk]
      rw [h1]
      simpa using hinv k

/-- C8: starting from a table with at most one row per channel, an
upsert preserves that invariant and leaves exactly the freshly written
row for the channel; re-running the upsert with new values again leaves
exactly one row for the channel, carrying the latest values. -/
theorem upsert_vod_summary_spec (table : List VodCacheRow) (login : List Char)
    (now now2 : PyTimestamp) (vc vc2 : Int) (av md vp av2 md2 vp2 : Rat)
    (hinv : ∀ k, countLogin table k ≤ 1) :
    (∀ k, countLogin (upsert_vod_summary table login now vc av md vp) k ≤ 1) ∧
    (upsert_vod_summary table login now vc av md vp).filter
        (cacheRowPred (lowerL login)) =
      [{ user_login := lowerL login, updated_at_utc := now, vod_count := vc
         avg_vod_views := av, median_vod_views := md
         views_per_hour := vp }] ∧
    (upsert_vod_summary (upsert_vod_summary table login now vc av md vp) login
        now2 vc2 av2 md2 vp2).filter (cacheRowPred (lowerL login)) =
      [{ user_login := lowerL login, updated_at_utc := now2, vod_count := vc2
         avg_vod_views := av2, median_vod_views := md2
         views_per_hour := vp2 }] :=
  ⟨upsert_countLogin_le table login now vc av md vp hinv,
   upsert_filter_eq table login now vc av md vp (hinv _),
   upsert_filter_eq _ login now2 vc2 av2 md2 vp2
     (upsert_countLogin_le table login now vc av md vp hinv _)⟩

/-- C8 witness: two successive upserts for the same channel on an empty
table leave exactly one row, holding the second upsert's values. -/
theorem upsert_vod_summary_spec_witness :
    (upsert_vod_summary
        (upsert_vod_summary [] ['a'] { wall := 0, tzoffset := some 0 } 3 10 10 5)
        ['a'] { wall := 9, tzoffset := some 0 } 4 20 20 9).filter
      (cacheRowPred (lowerL ['a'])) =
      [{ user_login := lowerL ['a']
         updated_at_utc := { wall := 9, tzoffset := some 0 }, vod_count := 4
         avg_vod_views := 20, median_vod_views := 20, views_per_hour := 9 }] :=
  (upsert_vod_summary_spec [] ['a'] { wall := 0, tzoffset := some 0 }
    { wall := 9, tzoffset := some 0 } 3 4 10 10 5 20 20 9
    (fun k => by simp [countLogin])).2.2

lemma all_mem_clean {s : List Char} (hs : s.all cleanChar = true) :
    ∀ c ∈ s, cleanChar c = true := by
  simpa [List.all_eq_true] using hs

lemma cleanChar_ranges (c : Char) (h : cleanChar c = true) :
    (97 ≤ c.toNat ∧ c.toNat ≤ 122) ∨ (48 ≤ c.toNat ∧ c.toNat ≤ 57) ∨
      c.toNat = 95 := by
  simp only [cleanChar, Bool.or_eq_true, Bool.and_eq_true, decide_eq_true_eq,
    beq_iff_eq] at h
  tauto

lemma clean_beq_false (c d : Char) (h : cleanChar c = true)
    (hd : cleanChar d = false) : (c == d) = false := by
  cases hcd : c == d
  · rfl
  · exfalso
    have he : c = d := by simpa [beq_iff_eq] using hcd
    rw [he] at h
    simp [h] at hd

lemma variant_not_ws (c : Char) (h : cleanChar c.toLower = true) :
    c.isWhitespace = false := by
  cases hw : c.isWhitespace
  · rfl
  · exfalso
    have hcases : c = ' ' ∨ c = '\t' ∨ c = '\r' ∨ c = '\n' := by
      simp only [Char.isWhitespace, Bool.or_eq_true, decide_eq_true_eq] at hw
      tauto
    rcases hcases with rfl | rfl | rfl | rfl <;> exact absurd h (by decide)

lemma isPre_mem (p l : List Char) (h : isPre p l = true) : ∀ c ∈ p, c ∈ l := by
  induction p generalizing l with
  | nil => intro c hc; simp at hc
  | cons a as_ ih =>
      cases l with
      | nil => simp [isPre] at h
      | cons b bs =>
          simp only [isPre, Bool.and_eq_true, beq_iff_eq] at h
          obtain ⟨rfl, hrest⟩ := h
          intro c hc
          rcases List.mem_cons.mp hc with rfl | hc2
          · exact List.mem_cons_self _ _
          · exact List.mem_cons_of_mem _ (ih bs hrest c hc2)

lemma isPre_false_of_clean (p s : List Char) (d : Char) (hdp : d ∈ p)
    (hd : cleanChar d = false) (hs : s.all cleanChar = true) :
    isPre p s = false := by
  cases hps : isPre p s
  · rfl
  · exfalso
    have hds : d ∈ s := isPre_mem p s hps d hdp
    have := all_mem_clean hs d hds
    simp [this] at hd

lemma isPre_append_self (p t : List Char) : isPre p (p ++ t) = true := by
  induction p with
  | nil => rfl
  | cons a as_ ih => simp [isPre, ih]

lemma takeWhile_all_true (p : Char → Bool) (l : List Char)
    (h : ∀ c ∈ l, p c = true) : l.takeWhile p = l := by
  induction l with
  | nil => rfl
  | cons x xs ih =>
      simp [List.takeWhile_cons, h x (List.mem_cons_self x xs),
        ih (fun c hc => h c (List.mem_cons_of_mem _ hc))]

lemma dropWhile_all_false (p : Char → Bool) (l : List Char)
    (h : ∀ c ∈ l, p c = false) : l.dropWhile p = l := by
  cases l with
  | nil => rfl
  | cons x xs => simp [List.dropWhile_cons, h x (List.mem_cons_self x xs)]

lemma dropWhile_all_true (p : Char → Bool) (l : List Char)
    (h : ∀ c ∈ l, p c = true) : l.dropWhile p = [] := by
  induction l with
  | nil => rfl
  | cons x xs ih =>
      simp [List.dropWhile_cons, h x (List.mem_cons_self x xs),
        ih (fun c hc => h c (List.mem_cons_of_mem _ hc))]

lemma filter_all_true (p : Char → Bool) (l : List Char)
    (h : ∀ c ∈ l, p c = true) : l.filter p = l := by
  induction l with
  | nil => rfl
  | cons x xs ih =>
      simp [List.filter_cons, h x (List.mem_cons_self x xs),
        ih (fun c hc => h c (List.mem_cons_of_mem _ hc))]

lemma stripEnds_all_false (p : Char → Bool) (l : List Char)
    (h : ∀ c ∈ l, p c = false) : stripEnds p l = l := by
  unfold stripEnds
  rw [dropWhile_all_false p l h,
    dropWhile_all_false p l.reverse (fun c hc => h c (List.mem_reverse.mp hc)),
    List.reverse_reverse]

lemma stripEnds_sandwich (p : Char → Bool) (ws1 u ws2 : List Char)
    (h1 : ∀ c ∈ ws1, p c = true) (h2 : ∀ c ∈ ws2, p c = true)
    (hu : ∀ c ∈ u, p c = false) : stripEnds p (ws1 ++ u ++ ws2) = u := by
  unfold stripEnds
  rw [List.append_assoc, List.dropWhile_append_of_pos (by simpa using h1)]
  cases u with
  | nil =>
      rw [List.nil_append, dropWhile_all_true p ws2 h2]
      rfl
  | cons x xs =>
      have hx : p x = false := hu x (List.mem_cons_self x xs)
      rw [List.cons_append, List.dropWhile_cons, if_neg (by simp [hx])]
      rw [show (x :: (xs ++ ws2)) = (x :: xs) ++ ws2 from rfl,
        List.reverse_append,
        List.dropWhile_append_of_pos
          (by simpa using fun c hc => h2 c (List.mem_reverse.mp hc)),
        dropWhile_all_false p (x :: xs).reverse
          (fun c hc => hu c (List.mem_reverse.mp hc)),
        List.reverse_reverse]

lemma clean_tail_pipeline (s : List Char) (hs : s.all cleanChar = true) :
    removeAtSign (strip_slashes (takeBeforeQuery s)) = s := by
  have hs' := all_mem_clean hs
  have htake : takeBeforeQuery s = s := by
    unfold takeBeforeQuery
    exact takeWhile_all_true _ s (fun c hc => by
      simp [clean_beq_false c '?' (hs' c hc) (by decide)])
  have hslash : strip_slashes s = s := by
    unfold strip_slashes
    exact stripEnds_all_false _ s (fun c hc =>
      clean_beq_false c '/' (hs' c hc) (by decide))
  have hat : removeAtSign s = s := by
    unfold removeAtSign
    exact filter_all_true _ s (fun c hc => by
      simp [clean_beq_false c '@' (hs' c hc) (by decide)])
  rw [htake, hslash, hat]

lemma clean_pipeline (s : List Char) (hs : s.all cleanChar = true) :
    removeAtSign (strip_slashes (takeBeforeQuery (dropUrl s))) = s := by
  have hdrop : dropUrl s = s := by
    unfold dropUrl
    rw [if_neg (by
        rw [isPre_false_of_clean urlPre1 s ':' (by decide) (by decide) hs]
        simp),
      if_neg (by
        rw [isPre_false_of_clean urlPre2 s ':' (by decide) (by decide) hs]
        simp),
      if_neg (by
        rw [isPre_false_of_clean urlPre3 s ':' (by decide) (by decide) hs]
        simp),
      if_neg (by
        rw [isPre_false_of_clean urlPre4 s ':' (by decide) (by decide) hs]
        simp)]
  rw [hdrop]
  exact clean_tail_pipeline s hs

lemma at_pipeline (s : List Char) (hs : s.all cleanChar = true) :
    removeAtSign (strip_slashes (takeBeforeQuery (dropUrl ('@' :: s)))) = s := by
  have hs' := all_mem_clean hs
  have hdrop : dropUrl ('@' :: s) = '@' :: s := by
    unfold dropUrl
    rw [if_neg (by rw [show isPre urlPre1 ('@' :: s) = false from rfl]; simp),
      if_neg (by rw [show isPre urlPre2 ('@' :: s) = false from rfl]; simp),
      if_neg (by rw [show isPre urlPre3 ('@' :: s) = false from rfl]; simp),
      if_neg (by rw [show isPre urlPre4 ('@' :: s) = false from rfl]; simp)]
  have htake : takeBeforeQuery ('@' :: s) = '@' :: s := by
    unfold takeBeforeQuery
    exact takeWhile_all_true _ _ (fun c hc => by
      rcases List.mem_cons.mp hc with rfl | hc2
      · decide
      · simp [clean_beq_false c '?' (hs' c hc2) (by decide)])
  have hslash : strip_slashes ('@' :: s) = '@' :: s := by
    unfold strip_slashes
    exact stripEnds_all_false _ _ (fun c hc => by
      rcases List.mem_cons.mp hc with rfl | hc2
      · decide
      · exact clean_beq_false c '/' (hs' c hc2) (by decide))
  have hat : removeAtSign ('@' :: s) = s := by
    unfold removeAtSign
    rw [List.filter_cons, if_neg (by decide)]
    exact filter_all_true _ s (fun c hc => by
      simp [clean_beq_false c '@' (hs' c hc) (by decide)])
  rw [hdrop, htake, hslash, hat]

/-- C9: for a canonical login `s` (lowercase letters, digits,
underscores), every mixed-case variant `u`, with or without surrounding
whitespace, a leading at sign, or any of the four `twitch.tv` URL prefix
forms, normalizes to the same canonical lowercase login `s`. -/
theorem normalize_twitch_login_spec (s ws1 ws2 u : List Char)
    (hs : s.all cleanChar = true)
    (h1 : ws1.all Char.isWhitespace = true)
    (h2 : ws2.all Char.isWhitespace = true)
    (hu : u.map Char.toLower = s) :
    normalize_twitch_login (ws1 ++ u ++ ws2) = s ∧
    normalize_twitch_login ('@' :: u) = s ∧
    normalize_twitch_login (urlPre1 ++ u) = s ∧
    normalize_twitch_login (urlPre2 ++ u) = s ∧
    normalize_twitch_login (urlPre3 ++ u) = s ∧
    normalize_twitch_login (urlPre4 ++ u) = s := by
  have hs' : ∀ c ∈ s, cleanChar c = true := all_mem_clean hs
  have hvar : ∀ c ∈ u, cleanChar c.toLower = true := by
    intro c hc
    exact hs' _ (hu ▸ List.mem_map_of_mem Char.toLower hc)
  have huws : ∀ c ∈ u, c.isWhitespace = false :=
    fun c hc => variant_not_ws c (hvar c hc)
  have hws1 : ∀ c ∈ ws1, Char.isWhitespace c = true := by
    simpa [List.all_eq_true] using h1
  have hws2 : ∀ c ∈ ws2, Char.isWhitespace c = true := by
    simpa [List.all_eq_true] using h2
  have hlow : lowerL u = s := hu
  refine ⟨?_, ?_, ?_, ?_, ?_, ?_⟩
  · -- whitespace-wrapped case variant
    by_cases hu0 : u = []
    · subst hu0
      have hs0 : s = [] := hu.symm
      subst hs0
      by_cases hw0 : ws1 ++ ([] : List Char) ++ ws2 = []
      · rw [hw0]
        rfl
      · unfold normalize_twitch_login
        rw [if_neg (by simpa [List.isEmpty_iff] using hw0)]
        have hstrip : strip_ws (ws1 ++ ([] : List Char) ++ ws2) = [] := by
          unfold strip_ws
          exact stripEnds_sandwich _ ws1 [] ws2 hws1 hws2 (by simp)
        rw [hstrip]
        rfl
    · have hne : ws1 ++ u ++ ws2 ≠ [] := by
        intro hc
        rw [List.append_eq_nil, List.append_eq_nil] at hc
        exact hu0 hc.1.2
      unfold normalize_twitch_login
      rw [if_neg (by simpa [List.isEmpty_iff] using hne)]
      have hstrip : strip_ws (ws1 ++ u ++ ws2) = u := by
        unfold strip_ws
        exact stripEnds_sandwich _ ws1 u ws2 hws1 hws2 huws
      rw [hstrip, hlow]
      exact clean_pipeline s hs
  · -- leading at sign
    unfold normalize_twitch_login
    rw [if_neg (by simp)]
    have hstrip : strip_ws ('@' :: u) = '@' :: u := by
      unfold strip_ws
      exact stripEnds_all_false _ _ (fun c hc => by
        rcases List.mem_cons.mp hc with rfl | hc2
        · decide
        · exact huws c hc2)
    rw [hstrip]
    have hlow2 : lowerL ('@' :: u) = '@' :: s := by
      unfold lowerL
      rw [List.map_cons, hu, show Char.toLower '@' = '@' from rfl]
    rw [hlow2]
    exact at_pipeline s hs
  · -- https://www.twitch.tv/ prefix
    unfold normalize_twitch_login
    rw [if_neg (by simp [urlPre1])]
    have hstrip : strip_ws (urlPre1 ++ u) = urlPre1 ++ u := by
      unfold strip_ws
      exact stripEnds_all_false _ _ (fun c hc => by
        rcases List.mem_append.mp hc with hcp | hcu
        · exact (by decide : ∀ x ∈ urlPre1, Char.isWhitespace x = false) c hcp
        · exact huws c hcu)
    rw [hstrip]
    have hlow3 : lowerL (urlPre1 ++ u) = urlPre1 ++ s := by
      unfold lowerL
      rw [List.map_append, hu]
      rfl
    rw [hlow3]
    have hdropU : dropUrl (urlPre1 ++ s) = s := by
      unfold dropUrl
      rw [if_pos (isPre_append_self urlPre1 s)]
      exact List.drop_left urlPre1 s
    rw [hdropU]
    exact clean_tail_pipeline s hs
  · -- https://twitch.tv/ prefix
    unfold normalize_twitch_login
    rw [if_neg (by simp [urlPre2])]
    have hstrip : strip_ws (urlPre2 ++ u) = urlPre2 ++ u := by
      unfold strip_ws
      exact stripEnds_all_false _ _ (fun c hc => by
        rcases List.mem_append.mp hc with hcp | hcu
        · exact (by decide : ∀ x ∈ urlPre2, Char.isWhitespace x = false) c hcp
        · exact huws c hcu)
    rw [hstrip]
    have hlow4 : lowerL (urlPre2 ++ u) = urlPre2 ++ s := by
      unfold lowerL
      rw [List.map_append, hu]
      rfl
    rw [hlow4]
    have hdropU : dropUrl (urlPre2 ++ s) = s := by
      unfold dropUrl
      rw [if_neg (by
          rw [show isPre urlPre1 (urlPre2 ++ s) = false from rfl]
          simp),
        if_pos (isPre_append_self urlPre2 s)]
      exact List.drop_left urlPre2 s
    rw [hdropU]
    exact clean_tail_pipeline s hs
  · -- http://www.twitch.tv/ prefix
    unfold normalize_twitch_login
    rw [if_neg (by simp [urlPre3])]
    have hstrip : strip_ws (urlPre3 ++ u) = urlPre3 ++ u := by
      unfold strip_ws
      exact stripEnds_all_false _ _ (fun c hc => by
        rcases List.mem_append.mp hc with hcp | hcu
        · exact (by decide : ∀ x ∈ urlPre3, Char.isWhitespace x = false) c hcp
        · exact huws c hcu)
    rw [hstrip]
    have hlow5 : lowerL (urlPre3 ++ u) = urlPre3 ++ s := by
      unfold lowerL
      rw [List.map_append, hu]
      rfl
    rw [hlow5]
    have hdropU : dropUrl (urlPre3 ++ s) = s := by
      unfold dropUrl
      rw [if_neg (by
          rw [show isPre urlPre1 (urlPre3 ++ s) = false from rfl]
          simp),
        if_neg (by
          rw [show isPre urlPre2 (urlPre3 ++ s) = false from rfl]
          simp),
        if_pos (isPre_append_self urlPre3 s)]
      exact List.drop_left urlPre3 s
    rw [hdropU]
    exact clean_tail_pipeline s hs
  · -- http://twitch.tv/ prefix
    unfold normalize_twitch_login
    rw [if_neg (by simp [urlPre4])]
    have hstrip : strip_ws (urlPre4 ++ u) = urlPre4 ++ u := by
      unfold strip_ws
      exact stripEnds_all_false _ _ (fun c hc => by
        rcases List.mem_append.mp hc with hcp | hcu
        · exact (by decide : ∀ x ∈ urlPre4, Char.isWhitespace x = false) c hcp
        · exact huws c hcu)
    rw [hstrip]
    have hlow6 : lowerL (urlPre4 ++ u) = urlPre4 ++ s := by
      unfold lowerL
      rw [List.map_append, hu]
      rfl
    rw [hlow6]
    have hdropU : dropUrl (urlPre4 ++ s) = s := by
      unfold dropUrl
      rw [if_neg (by
          rw [show isPre urlPre1 (urlPre4 ++ s) = false from rfl]
          simp),
        if_neg (by
          rw [show isPre urlPre2 (urlPre4 ++ s) = false from rfl]
          simp),
        if_neg (by
          rw [show isPre urlPre3 (urlPre4 ++ s) = false from rfl]
          simp),
        if_pos (isPre_append_self urlPre4 s)]
      exact List.drop_left urlPre4 s
    rw [hdropU]
    exact clean_tail_pipeline s hs

/-- C9 witness: `" ShRoud "`, `"@ShRoud"` and
`"https://www.twitch.tv/ShRoud"` all normalize to `"shroud"`. -/
theorem normalize_twitch_login_spec_witness :
    (['s', 'h', 'r', 'o', 'u', 'd'].all cleanChar = true) ∧
    ([' '].all Char.isWhitespace = true) ∧
    (['S', 'h', 'R', 'o', 'u', 'd'].map Char.toLower =
      ['s', 'h', 'r', 'o', 'u', 'd']) ∧
    normalize_twitch_login ([' '] ++ ['S', 'h', 'R', 'o', 'u', 'd'] ++ [' ']) =
      ['s', 'h', 'r', 'o', 'u', 'd'] ∧
    normalize_twitch_login ('@' :: ['S', 'h', 'R', 'o', 'u', 'd']) =
      ['s', 'h', 'r', 'o', 'u', 'd'] ∧
    normalize_twitch_login (urlPre1 ++ ['S', 'h', 'R', 'o', 'u', 'd']) =
      ['s', 'h', 'r', 'o', 'u', 'd'] :=
  ⟨by decide, by decide, by decide,
    (normalize_twitch_login_spec ['s', 'h', 'r', 'o', 'u', 'd'] [' '] [' ']
      ['S', 'h', 'R', 'o', 'u', 'd'] (by decide) (by decide) (by decide)
      (by decide)).1,
    (normalize_twitch_login_spec ['s', 'h', 'r', 'o', 'u', 'd'] [' '] [' ']
      ['S', 'h', 'R', 'o', 'u', 'd'] (by decide) (by decide) (by decide)
      (by decide)).2.1,
    (normalize_twitch_login_spec ['s', 'h', 'r', 'o', 'u', 'd'] [' '] [' ']
      ['S', 'h', 'R', 'o', 'u', 'd'] (by decide) (by decide) (by decide)
      (by decide)).2.2.1⟩
